import Mathlib

/-!
# Verification of the todoist-cli reference resolver and formatters

Shallow embedding of `src/cli.ts` (joelhooks/todoist-cli).  Remote calls are
abstracted as explicit parameters: a fetch-by-id function `String → Option e`
(`none` models a rejected API call) and the search / listing response
`Option (List e)` (`none` models the search call throwing).  `fatal` calls
`process.exit(1)` and is therefore terminal: it is modelled as a constructor
of `ResolveResult`, and a rejected promise that propagates out of the
resolver (uncaught) is modelled as the distinct constructor `thrown`.
-/

namespace TodoistCli

/-- Task due specification, from the `Task` type in cli.ts.  The TS
declaration gives `date: string`, but `formatTask` and `cmdReview` guard
`t.due?.date` with nullish/falsy checks, so the runtime shape (an `as Task`
cast of a dynamic payload) may omit it; we model `date` and `datetime` as
optional, with `none` standing for `null`/`undefined`. -/
structure Due where
  date : Option String
  datetime : Option String
  string : String
  isRecurring : Bool
  deriving Repr, DecidableEq

/-- Embeds the nullable `deadline` record of cli.ts, holding a `date` string. -/
structure Deadline where
  date : String
  deriving Repr, DecidableEq

/-- The `Task` type of cli.ts. -/
structure Task where
  id : String
  content : String
  description : String
  priority : Int
  due : Option Due
  deadline : Option Deadline
  labels : List String
  projectId : String
  sectionId : Option String
  parentId : Option String
  url : String
  deriving Repr, DecidableEq

/-- Projects as used by `resolveProjectRef` / `cmdReview` (id, name, inbox flag). -/
structure Project where
  id : String
  name : String
  isInboxProject : Bool
  deriving Repr, DecidableEq

/-! ## Character-list string helpers

The JS string operations of cli.ts are embedded over `String.data`
(`List Char`); `toLowerCase` becomes a `Char.toLower` map (both lowercase
letters; the embedding covers the ASCII range the CLI deals in). -/

/-- Embeds `s.toLowerCase()` as a character list. -/
def lowerData (s : String) : List Char := s.data.map Char.toLower

/-- Test `startsWithSeq l pat` : the list `l` starts with `pat` (JS `startsWith`). -/
def startsWithSeq : List Char → List Char → Bool
  | _, [] => true
  | [], _ :: _ => false
  | x :: xs, c :: cs => x == c && startsWithSeq xs cs

/-- Test `containsSeq l pat` : `pat` occurs contiguously in `l` (JS `includes`). -/
def containsSeq : List Char → List Char → Bool
  | l, pat =>
    startsWithSeq l pat ||
      match l with
      | [] => false
      | _ :: xs => containsSeq xs pat

/-- Compute `dropSeq lit l` : `some` of the remainder of `l` after the literal `lit`,
`none` when `l` does not start with `lit`. -/
def dropSeq : List Char → List Char → Option (List Char)
  | [], l => some l
  | _ :: _, [] => none
  | c :: cs, x :: xs => if x = c then dropSeq cs xs else none

/-! ## Ref predicates (cli.ts lines 89–105) -/

/-- Embeds `!ref.trim()` : `ref.trim()` is the empty string exactly when every
character of `ref` is whitespace. -/
def allWhitespace (ref : String) : Bool := ref.data.all Char.isWhitespace

/-- Embeds `isIdRef` (cli.ts line 100): `ref.startsWith("id:")`. -/
def isIdRef (ref : String) : Bool := startsWithSeq ref.data "id:".data

/-- Embeds `extractId` (cli.ts line 101): `ref.slice(3)`. -/
def extractId (ref : String) : String := ⟨ref.data.drop 3⟩

/-- Embeds `looksLikeRawId` (cli.ts lines 102–105): rejects a ref containing a space
character, then accepts `/^\d+$/` (nonempty all-digits) or the conjunction of
`/[a-zA-Z]/` and `/\d/`. -/
def looksLikeRawId (ref : String) : Bool :=
  if ref.data.contains ' ' then false
  else
    (!ref.data.isEmpty && ref.data.all Char.isDigit) ||
      (ref.data.any Char.isAlpha && ref.data.any Char.isDigit)

/-! ## URL parsing (cli.ts lines 89–98) -/

/-- Result of `parseTodoistUrl`: `{ type, id }`.  (`kind` is the captured
`(task|project|label|filter)` segment, called `type` in the source.) -/
structure UrlParts where
  kind : String
  id : String
  deriving Repr, DecidableEq

/-- The `(task|project|label|filter)\/` alternation of `TODOIST_URL_PATTERN`:
the four alternatives are mutually non-overlapping literals each followed by
`/`. -/
def matchUrlKind (l : List Char) : Option (String × List Char) :=
  match dropSeq "task/".data l with
  | some r => some ("task", r)
  | none =>
    match dropSeq "project/".data l with
    | some r => some ("project", r)
    | none =>
      match dropSeq "label/".data l with
      | some r => some ("label", r)
      | none =>
        match dropSeq "filter/".data l with
        | some r => some ("filter", r)
        | none => none

/-- Embeds `parseTodoistUrl` (cli.ts lines 91–98): anchored match of
`^https?:\/\/app\.todoist\.com\/app\/(task|project|label|filter)\/([^?#]+)`,
then the id is the slug segment after its last hyphen (the whole segment when
it has no hyphen). -/
def parseTodoistUrl (url : String) : Option UrlParts :=
  match dropSeq "http".data url.data with
  | none => none
  | some r0 =>
    let r1 := match r0 with
      | 's' :: r => r
      | r => r
    match dropSeq "://app.todoist.com/app/".data r1 with
    | none => none
    | some r2 =>
      match matchUrlKind r2 with
      | none => none
      | some (k, r3) =>
        let slugAndId := r3.takeWhile fun c => !(c == '?' || c == '#')
        if slugAndId.isEmpty then none
        else some ⟨k, ⟨(slugAndId.reverse.takeWhile fun c => !(c == '-')).reverse⟩⟩

/-! ## The resolver (cli.ts lines 107–175) -/

/-- Terminal outcomes of ref resolution.  `emptyRef`, `wrongUrlKind`,
`ambiguous` and `notFound` are the four `fatal` exits of
`resolveTaskRef`/`resolveProjectRef`; `thrown` models a rejected API promise
propagating uncaught out of the resolver (URL fetch, `id:` fetch, or the
project listing), to be wrapped by `main`'s top-level catch. -/
inductive ResolveResult (α : Type) where
  | resolved (e : α)
  | emptyRef
  | wrongUrlKind (kind : String)
  | ambiguous (candidates : List (String × String))
  | notFound
  | thrown
  deriving Repr, DecidableEq

/-- The exact-match filter of the search strategy: candidates whose display
text lowercased equals the ref lowercased (cli.ts line 126 / 160). -/
def exactMatches (display : α → String) (ref : String) (results : List α) : List α :=
  results.filter fun t => lowerData (display t) == lowerData ref

/-- The substring-match filter of the search strategy: candidates whose
display text lowercased contains the ref lowercased (cli.ts line 130 / 163). -/
def substrMatches (display : α → String) (ref : String) (results : List α) : List α :=
  results.filter fun t => containsSeq (lowerData (display t)) (lowerData ref)

/-- The exact-then-substring ranking shared by task and project resolution
(cli.ts lines 125–135 and 160–168): `none` means fall through to the raw-id
fallback. -/
def rankCandidates (display ident : α → String) (ref : String) (results : List α) :
    Option (ResolveResult α) :=
  match exactMatches display ref results with
  | [t] => some (.resolved t)
  | _ =>
    match substrMatches display ref results with
    | [t] => some (.resolved t)
    | [] => none
    | more => some (.ambiguous ((more.take 5).map fun t => (display t, ident t)))

/-- Embeds `resolveTaskRef` (cli.ts lines 107–144).  `fetch` embeds `api.getTask`;
`searchResults` embeds the `api.getTasksByFilter` response, `none` meaning the
search call threw (caught at line 136, falling through to the raw-id
fallback). -/
def resolveTaskRef (fetch : String → Option Task) (searchResults : Option (List Task))
    (ref : String) : ResolveResult Task :=
  if allWhitespace ref then .emptyRef
  else
    match parseTodoistUrl ref with
    | some p =>
      if p.kind == "task" then
        match fetch p.id with
        | some t => .resolved t
        | none => .thrown
      else .wrongUrlKind p.kind
    | none =>
      if isIdRef ref then
        match fetch (extractId ref) with
        | some t => .resolved t
        | none => .thrown
      else
        match searchResults.bind fun rs => rankCandidates Task.content Task.id ref rs with
        | some r => r
        | none =>
          if looksLikeRawId ref then
            match fetch ref with
            | some t => .resolved t
            | none => .notFound
          else .notFound

/-- Embeds `resolveProjectRef` (cli.ts lines 146–175).  The project listing call is
not wrapped in a try block, so a throwing listing propagates (`thrown`); the
ranking and raw-id fallback mirror task resolution with `name` as display
text. -/
def resolveProjectRef (fetch : String → Option Project) (listing : Option (List Project))
    (ref : String) : ResolveResult Project :=
  if allWhitespace ref then .emptyRef
  else
    match parseTodoistUrl ref with
    | some p =>
      if p.kind == "project" then
        match fetch p.id with
        | some pr => .resolved pr
        | none => .thrown
      else .wrongUrlKind p.kind
    | none =>
      if isIdRef ref then
        match fetch (extractId ref) with
        | some pr => .resolved pr
        | none => .thrown
      else
        match listing with
        | none => .thrown
        | some projects =>
          match rankCandidates Project.name Project.id ref projects with
          | some r => r
          | none =>
            if looksLikeRawId ref then
              match fetch ref with
              | some pr => .resolved pr
              | none => .notFound
            else .notFound

/-! ## The formatter (cli.ts lines 179–195) -/

/-- The stable output shape produced by `formatTask`; `none` stands for an
omitted (`undefined`) or `null` JSON field. -/
structure FormattedTask where
  id : String
  content : String
  description : Option String
  priority : Int
  due : Option String
  dueString : Option String
  isRecurring : Bool
  deadline : Option String
  labels : Option (List String)
  projectId : String
  sectionId : Option String
  parentId : Option String
  url : String
  deriving Repr, DecidableEq

/-- Embeds `formatTask` (cli.ts lines 179–195).  `description || undefined` omits an
empty description; `due` is `t.due?.date ?? t.due?.datetime ?? null` (nullish
coalescing: an empty-string date is kept); `labels` is omitted when empty. -/
def formatTask (t : Task) : FormattedTask where
  id := t.id
  content := t.content
  description := if t.description = "" then none else some t.description
  priority := t.priority
  due :=
    match t.due with
    | none => none
    | some d =>
      match d.date with
      | some x => some x
      | none => d.datetime
  dueString := t.due.map Due.string
  isRecurring :=
    match t.due with
    | none => false
    | some d => d.isRecurring
  deadline := t.deadline.map Deadline.date
  labels := if t.labels = [] then none else some t.labels
  projectId := t.projectId
  sectionId := t.sectionId
  parentId := t.parentId
  url := t.url

/-! ## Duration parsing (cli.ts lines 746–759) -/

/-- Embeds `parseInt` on a digit run. -/
def digitsToNat (l : List Char) : Nat :=
  l.foldl (fun a c => a * 10 + (c.toNat - '0'.toNat)) 0

/-- Leftmost match of `/(\d+)\s*u.../i` for a unit character `u` (`'h'` or
`'m'`), returning the captured digit run's value.  A JS regex scans positions
left to right; a match starting mid-digit-run succeeds exactly when the run's
start does, so the first success captures a maximal digit run followed by
optional whitespace and the (case-insensitive) unit letter. -/
def findUnitMatch (unit : Char) : List Char → Option Nat
  | [] => none
  | c :: rest =>
    if c.isDigit then
      match ((c :: rest).dropWhile Char.isDigit).dropWhile Char.isWhitespace with
      | u :: _ =>
        if u.toLower = unit then some (digitsToNat ((c :: rest).takeWhile Char.isDigit))
        else findUnitMatch unit rest
      | [] => findUnitMatch unit rest
    else findUnitMatch unit rest

/-- Embeds `s.trim()` on a character list. -/
def trimData (l : List Char) : List Char :=
  ((l.dropWhile Char.isWhitespace).reverse.dropWhile Char.isWhitespace).reverse

/-- Embeds `parseDuration` (cli.ts lines 746–759): sums an hours match (×60) and a
minutes match; when neither pattern matches, a bare all-digit (trimmed) string
is taken as minutes; otherwise `null`. -/
def parseDuration (s : String) : Option Nat :=
  match findUnitMatch 'h' s.data, findUnitMatch 'm' s.data with
  | none, none =>
    let t := trimData s.data
    if !t.isEmpty && t.all Char.isDigit then some (digitsToNat t) else none
  | hM, mM => some (hM.getD 0 * 60 + mM.getD 0)

/-! ## reminder-add validation (cli.ts lines 430–450) -/

/-- The observable outcomes of `cmdReminderAdd` up to the Sync API call:
`usageError` is the line-431 check, `invalidDuration` and `noDueDate` the two
`fatal` exits of the `--before` branch, and `submitted` carries the
`minute_offset` / `due` fields placed into the reminder_add command. -/
inductive ReminderAddOutcome where
  | usageError
  | invalidDuration
  | noDueDate
  | submitted (minuteOffset : Option Nat) (due : Option String)
  deriving Repr, DecidableEq

/-- Embeds `cmdReminderAdd`'s validation and command construction (cli.ts lines
430–450).  `before`/`at_` are `none` when the flag is absent (a present flag
value is never the empty string, so JS truthiness coincides with presence);
`taskDue` is whether the resolved task carries a due value.  The line-431
usage check runs before `getApi()`/task resolution, hence before any remote
call; `taskDue` is only consulted afterwards. -/
def cmdReminderAddCheck (before at_ : Option String) (taskDue : Bool) : ReminderAddOutcome :=
  match before, at_ with
  | none, none => .usageError
  | _, _ =>
    match before with
    | some b =>
      match parseDuration b with
      | none => .invalidDuration
      | some mins =>
        if taskDue then .submitted (some mins) at_
        else .noDueDate
    | none => .submitted none at_

/-! ## review's overdue partition (cli.ts lines 701–742)

`cmdReview` computes `today = new Date(); today.setHours(0,0,0,0)` — the
instant of *local* midnight of the current local day — and keeps a task when
`new Date(t.due.date) < today`.  Per the ECMAScript date-time string format, a
date-only string `YYYY-MM-DD` is parsed as *UTC* midnight of that date.
Instants are modelled as minutes since the Unix epoch and the environment's
local offset (minutes east of UTC) is an explicit parameter. -/

/-- Gregorian leap year. -/
def isLeapYear (y : Int) : Bool := y % 4 == 0 && (y % 100 != 0 || y % 400 == 0)

/-- Day count of a month. -/
def daysInMonth (y m : Int) : Int :=
  if m = 2 then (if isLeapYear y then 29 else 28)
  else if m = 4 ∨ m = 6 ∨ m = 9 ∨ m = 11 then 30
  else 31

/-- Days from the Unix epoch to a civil date (standard era-based conversion). -/
def daysFromCivil (y m d : Int) : Int :=
  let y' := if m ≤ 2 then y - 1 else y
  let era := y'.fdiv 400
  let yoe := y' - era * 400
  let mp := if m > 2 then m - 3 else m + 9
  let doy := (153 * mp + 2).fdiv 5 + d - 1
  let doe := yoe * 365 + yoe.fdiv 4 - yoe.fdiv 100 + doy
  era * 146097 + doe - 719468

/-- Embeds `new Date(s)` for a canonical date-only string `YYYY-MM-DD` (the form the
API delivers for calendar due dates): UTC midnight of that date, in epoch
minutes.  Any other shape yields `none` (an invalid date compares as `NaN`,
i.e. never `<`). -/
def parseDateUTCmin (s : String) : Option Int :=
  match s.data with
  | [y1, y2, y3, y4, h1, m1, m2, h2, d1, d2] =>
    if h1 = '-' ∧ h2 = '-' ∧ [y1, y2, y3, y4, m1, m2, d1, d2].all Char.isDigit then
      let y : Int := Int.ofNat (digitsToNat [y1, y2, y3, y4])
      let m : Int := Int.ofNat (digitsToNat [m1, m2])
      let d : Int := Int.ofNat (digitsToNat [d1, d2])
      if 1 ≤ m ∧ m ≤ 12 ∧ 1 ≤ d ∧ d ≤ daysInMonth y m then
        some (daysFromCivil y m d * 1440)
      else none
    else none
  | _ => none

/-- The local civil day (days since epoch) containing an instant, for a zone
`off` minutes east of UTC. -/
def localDayOf (now off : Int) : Int := (now + off).fdiv 1440

/-- Embeds `today.setHours(0,0,0,0)`: the instant of local midnight of the current
local day. -/
def startOfLocalDay (now off : Int) : Int := localDayOf now off * 1440 - off

/-- Embeds `cmdReview`'s overdue filter (cli.ts lines 717–723): keep tasks with a
truthy `due.date` whose parsed instant is strictly before `today`. -/
def reviewOverdue (off now : Int) (tasks : List Task) : List Task :=
  tasks.filter fun t =>
    match t.due with
    | none => false
    | some d =>
      match d.date with
      | none => false
      | some ds =>
        if ds = "" then false
        else
          match parseDateUTCmin ds with
          | none => false
          | some inst => decide (inst < startOfLocalDay now off)

/-! ## Concrete fixtures and the spec-worded raw-id predicate -/

/-- A task with the given id and content and neutral remaining fields. -/
def sampleTask (i c : String) : Task :=
  { id := i, content := c, description := "", priority := 1, due := none, deadline := none,
    labels := [], projectId := "p1", sectionId := none, parentId := none, url := "" }

/-- A project with the given id and name. -/
def sampleProject (i n : String) : Project :=
  { id := i, name := n, isInboxProject := false }

/-- Follows the spec's words for the raw-id test (§4.1 strategy 5: "no
embedded whitespace, and either all-digits or an alphanumeric string
containing at least one letter and one digit"), stated for comparison with
the source's `looksLikeRawId`. -/
def specLooksLikeRawId (ref : String) : Bool :=
  !ref.data.any Char.isWhitespace &&
    ((!ref.data.isEmpty && ref.data.all Char.isDigit) ||
      (ref.data.all Char.isAlphanum && ref.data.any Char.isAlpha && ref.data.any Char.isDigit))

/-- A task due on the calendar date 2026-10-11 (epoch day 20737). -/
def overdueProbeTask : Task :=
  { id := "1", content := "due today", description := "", priority := 1,
    due := some { date := some "2026-10-11", datetime := none, string := "Oct 11",
                  isRecurring := false },
    deadline := none, labels := [], projectId := "p1", sectionId := none, parentId := none,
    url := "" }

/-! ## Helper lemmas -/

theorem startsWithSeq_refl (l : List Char) : startsWithSeq l l = true := by
  induction l with
  | nil => rfl
  | cons x xs ih => simp [startsWithSeq, ih]

theorem containsSeq_refl (l : List Char) : containsSeq l l = true := by
  cases l with
  | nil => rfl
  | cons x xs => simp [containsSeq, startsWithSeq_refl]

theorem startsWithSeq_exists {l pat : List Char} (h : startsWithSeq l pat = true) :
    ∃ rest, l = pat ++ rest := by
  induction pat generalizing l with
  | nil => exact ⟨l, rfl⟩
  | cons c cs ih =>
    cases l with
    | nil => simp [startsWithSeq] at h
    | cons x xs =>
      simp only [startsWithSeq, Bool.and_eq_true, beq_iff_eq] at h
      obtain ⟨rest, hr⟩ := ih h.2
      exact ⟨rest, by simp [h.1, hr]⟩

theorem length_filter_le_of_imp {α : Type} (l : List α) (p q : α → Bool)
    (h : ∀ a, p a = true → q a = true) :
    (l.filter p).length ≤ (l.filter q).length := by
  induction l with
  | nil => simp
  | cons a t ih =>
    cases hp : p a with
    | true =>
      have hq := h a hp
      simp [List.filter_cons, hp, hq]
      omega
    | false =>
      cases hq : q a with
      | true =>
        simp [List.filter_cons, hp, hq]
        omega
      | false =>
        simp [List.filter_cons, hp, hq]
        exact ih

theorem length_exact_le_substr {α : Type} (display : α → String) (ref : String)
    (rs : List α) :
    (exactMatches display ref rs).length ≤ (substrMatches display ref rs).length := by
  refine length_filter_le_of_imp rs _ _ fun a ha => ?_
  have he : lowerData (display a) = lowerData ref := by
    exact eq_of_beq ha
  rw [he]
  exact containsSeq_refl _

theorem parseTodoistUrl_head {ref : String} {p : UrlParts}
    (h : parseTodoistUrl ref = some p) : ∃ l, ref.data = 'h' :: l := by
  have hh : "http".data = ['h', 't', 't', 'p'] := rfl
  unfold parseTodoistUrl at h
  rw [hh] at h
  cases hd : ref.data with
  | nil => rw [hd] at h; simp [dropSeq] at h
  | cons c l =>
    rw [hd] at h
    by_cases hc : c = 'h'
    · subst hc
      exact ⟨l, rfl⟩
    · simp [dropSeq, hc] at h

theorem allWhitespace_false_of_parse {ref : String} {p : UrlParts}
    (h : parseTodoistUrl ref = some p) : allWhitespace ref = false := by
  obtain ⟨l, hl⟩ := parseTodoistUrl_head h
  simp [allWhitespace, hl]

theorem isIdRef_data {ref : String} (h : isIdRef ref = true) :
    ∃ rest, ref.data = 'i' :: 'd' :: ':' :: rest := by
  obtain ⟨rest, hr⟩ := startsWithSeq_exists h
  have hh : "id:".data = ['i', 'd', ':'] := rfl
  rw [hh] at hr
  exact ⟨rest, hr⟩

theorem parseTodoistUrl_of_isIdRef {ref : String} (h : isIdRef ref = true) :
    parseTodoistUrl ref = none := by
  obtain ⟨rest, hr⟩ := isIdRef_data h
  have hh : "http".data = ['h', 't', 't', 'p'] := rfl
  unfold parseTodoistUrl
  rw [hh, hr]
  simp [dropSeq]

theorem allWhitespace_false_of_isIdRef {ref : String} (h : isIdRef ref = true) :
    allWhitespace ref = false := by
  obtain ⟨rest, hr⟩ := isIdRef_data h
  simp [allWhitespace, hr]

theorem rank_of_exact_singleton {α : Type} (display ident : α → String) (ref : String)
    (rs : List α) (t : α) (h : exactMatches display ref rs = [t]) :
    rankCandidates display ident ref rs = some (.resolved t) := by
  unfold rankCandidates
  rw [h]

theorem rank_of_ambiguous {α : Type} (display ident : α → String) (ref : String)
    (rs : List α) (hE : (exactMatches display ref rs).length ≠ 1)
    (hS : 2 ≤ (substrMatches display ref rs).length) :
    rankCandidates display ident ref rs =
      some (.ambiguous (((substrMatches display ref rs).take 5).map
        fun t => (display t, ident t))) := by
  unfold rankCandidates
  obtain ⟨a, b, m, hsm⟩ : ∃ a b m, substrMatches display ref rs = a :: b :: m := by
    cases h : substrMatches display ref rs with
    | nil => rw [h] at hS; simp at hS
    | cons a t =>
      cases t with
      | nil => rw [h] at hS; simp at hS
      | cons b m => exact ⟨a, b, m, rfl⟩
  cases hx : exactMatches display ref rs with
  | nil => rw [hsm]
  | cons x xs =>
    cases xs with
    | nil => rw [hx] at hE; simp at hE
    | cons y ys => rw [hsm]

theorem resolveTaskRef_search (fetch : String → Option Task) (sr : Option (List Task))
    (ref : String) (hws : allWhitespace ref = false) (hurl : parseTodoistUrl ref = none)
    (hid : isIdRef ref = false) :
    resolveTaskRef fetch sr ref =
      match sr.bind fun rs => rankCandidates Task.content Task.id ref rs with
      | some r => r
      | none =>
        if looksLikeRawId ref then
          match fetch ref with
          | some t => .resolved t
          | none => .notFound
        else .notFound := by
  simp [resolveTaskRef, hws, hurl, hid]

theorem resolveProjectRef_search (fetch : String → Option Project) (ps : List Project)
    (ref : String) (hws : allWhitespace ref = false) (hurl : parseTodoistUrl ref = none)
    (hid : isIdRef ref = false) :
    resolveProjectRef fetch (some ps) ref =
      match rankCandidates Project.name Project.id ref ps with
      | some r => r
      | none =>
        if looksLikeRawId ref then
          match fetch ref with
          | some pr => .resolved pr
          | none => .notFound
        else .notFound := by
  simp [resolveProjectRef, hws, hurl, hid]

/-! ## Claim theorems -/

/-- C1: for every search-result list and every ref whose lowercased form
equals the lowercased display text (content) of exactly one candidate,
`resolveTaskRef` returns that candidate, regardless of how many other
candidates contain the ref as a substring; the same holds for
`resolveProjectRef` over the project listing with the project name as display
text. -/
theorem c1_unique_exact_match :
    (∀ (fetch : String → Option Task) (rs : List Task) (ref : String) (t : Task),
      allWhitespace ref = false → parseTodoistUrl ref = none → isIdRef ref = false →
      exactMatches Task.content ref rs = [t] →
      resolveTaskRef fetch (some rs) ref = .resolved t) ∧
    (∀ (fetch : String → Option Project) (ps : List Project) (ref : String) (pr : Project),
      allWhitespace ref = false → parseTodoistUrl ref = none → isIdRef ref = false →
      exactMatches Project.name ref ps = [pr] →
      resolveProjectRef fetch (some ps) ref = .resolved pr) := by
  constructor
  · intro fetch rs ref t hws hurl hid hx
    rw [resolveTaskRef_search fetch (some rs) ref hws hurl hid]
    simp [Option.bind, rank_of_exact_singleton Task.content Task.id ref rs t hx]
  · intro fetch ps ref pr hws hurl hid hx
    rw [resolveProjectRef_search fetch ps ref hws hurl hid]
    simp [rank_of_exact_singleton Project.name Project.id ref ps pr hx]

/-- Witness for C1 at concrete inputs. -/
theorem c1_witness :
    resolveTaskRef (fun _ => none)
      (some [sampleTask "2" "Buy milk and eggs", sampleTask "1" "Buy milk"]) "buy milk" =
      .resolved (sampleTask "1" "Buy milk") ∧
    resolveProjectRef (fun _ => none)
      (some [sampleProject "11" "Work", sampleProject "12" "Workout"]) "work" =
      .resolved (sampleProject "11" "Work") :=
  ⟨c1_unique_exact_match.1 (fun _ => none)
      [sampleTask "2" "Buy milk and eggs", sampleTask "1" "Buy milk"] "buy milk"
      (sampleTask "1" "Buy milk") (by decide) (by decide) (by decide) (by decide),
   c1_unique_exact_match.2 (fun _ => none)
      [sampleProject "11" "Work", sampleProject "12" "Workout"] "work"
      (sampleProject "11" "Work") (by decide) (by decide) (by decide) (by decide)⟩

/-- C2: for every ref that is a case-insensitive substring of the display
text of more than one candidate and has no unique exact match, resolution
fails with the ambiguous-reference error whose candidate list is the first at
most 5 (display text, id) pairs of the substring matches, in the exact order
the search/listing returned them. -/
theorem c2_ambiguous_capped :
    (∀ (fetch : String → Option Task) (rs : List Task) (ref : String),
      allWhitespace ref = false → parseTodoistUrl ref = none → isIdRef ref = false →
      (exactMatches Task.content ref rs).length ≠ 1 →
      2 ≤ (substrMatches Task.content ref rs).length →
      resolveTaskRef fetch (some rs) ref =
        .ambiguous (((substrMatches Task.content ref rs).take 5).map
          fun t => (t.content, t.id)) ∧
      (((substrMatches Task.content ref rs).take 5).map
          fun t => (t.content, t.id)).length ≤ 5) ∧
    (∀ (fetch : String → Option Project) (ps : List Project) (ref : String),
      allWhitespace ref = false → parseTodoistUrl ref = none → isIdRef ref = false →
      (exactMatches Project.name ref ps).length ≠ 1 →
      2 ≤ (substrMatches Project.name ref ps).length →
      resolveProjectRef fetch (some ps) ref =
        .ambiguous (((substrMatches Project.name ref ps).take 5).map
          fun pr => (pr.name, pr.id)) ∧
      (((substrMatches Project.name ref ps).take 5).map
          fun pr => (pr.name, pr.id)).length ≤ 5) := by
  constructor
  · intro fetch rs ref hws hurl hid hE hS
    constructor
    · rw [resolveTaskRef_search fetch (some rs) ref hws hurl hid]
      simp [Option.bind, rank_of_ambiguous Task.content Task.id ref rs hE hS]
    · simp only [List.length_map, List.length_take]
      omega
  · intro fetch ps ref hws hurl hid hE hS
    constructor
    · rw [resolveProjectRef_search fetch ps ref hws hurl hid]
      simp [rank_of_ambiguous Project.name Project.id ref ps hE hS]
    · simp only [List.length_map, List.length_take]
      omega

/-- Witness for C2 at concrete inputs. -/
theorem c2_witness :
    resolveTaskRef (fun _ => none)
      (some [sampleTask "1" "Deploy pipeline", sampleTask "2" "Deploy worker"]) "deploy" =
      .ambiguous [("Deploy pipeline", "1"), ("Deploy worker", "2")] ∧
    resolveProjectRef (fun _ => none)
      (some [sampleProject "11" "Alpha site", sampleProject "12" "Alphabet"]) "alpha" =
      .ambiguous [("Alpha site", "11"), ("Alphabet", "12")] := by
  constructor
  · rw [(c2_ambiguous_capped.1 (fun _ => none)
      [sampleTask "1" "Deploy pipeline", sampleTask "2" "Deploy worker"] "deploy"
      (by decide) (by decide) (by decide) (by decide) (by decide)).1]
    decide
  · rw [(c2_ambiguous_capped.2 (fun _ => none)
      [sampleProject "11" "Alpha site", sampleProject "12" "Alphabet"] "alpha"
      (by decide) (by decide) (by decide) (by decide) (by decide)).1]
    decide

/-- C3: for every ref matching the canonical Todoist URL pattern whose kind
segment differs from the requested entity kind, resolution fails with the
wrong-URL-kind error naming the mismatched kind, independently of the fetch
function and the search/listing response (so the id:-prefix, free-text-search
and raw-id strategies are never consulted). -/
theorem c3_wrong_url_kind :
    (∀ (fetch : String → Option Task) (sr : Option (List Task)) (ref : String)
      (p : UrlParts), parseTodoistUrl ref = some p → p.kind ≠ "task" →
      resolveTaskRef fetch sr ref = .wrongUrlKind p.kind) ∧
    (∀ (fetch : String → Option Project) (listing : Option (List Project)) (ref : String)
      (p : UrlParts), parseTodoistUrl ref = some p → p.kind ≠ "project" →
      resolveProjectRef fetch listing ref = .wrongUrlKind p.kind) := by
  constructor
  · intro fetch sr ref p hp hk
    have hws := allWhitespace_false_of_parse hp
    simp [resolveTaskRef, hws, hp, hk]
  · intro fetch listing ref p hp hk
    have hws := allWhitespace_false_of_parse hp
    simp [resolveProjectRef, hws, hp, hk]

/-- Witness for C3 at concrete inputs: a project URL to task resolution, a
task URL to project resolution. -/
theorem c3_witness :
    resolveTaskRef (fun _ => none) (some [])
      "https://app.todoist.com/app/project/my-proj-123" = .wrongUrlKind "project" ∧
    resolveProjectRef (fun _ => none) (some [])
      "https://app.todoist.com/app/task/buy-milk-42" = .wrongUrlKind "task" :=
  ⟨c3_wrong_url_kind.1 (fun _ => none) (some [])
      "https://app.todoist.com/app/project/my-proj-123" ⟨"project", "123"⟩
      (by decide) (by decide),
   c3_wrong_url_kind.2 (fun _ => none) (some [])
      "https://app.todoist.com/app/task/buy-milk-42" ⟨"task", "42"⟩
      (by decide) (by decide)⟩

/-- Counterexample to C4's failure clause: for the ref `"id:abc"` with a
failing direct fetch, the resolution outcome is the propagated fetch error
(`thrown`, wrapped by main's top-level catch), not the resolver's NotFound
error. -/
theorem c4_counterexample :
    resolveTaskRef (fun _ => none) (some []) "id:abc" = .thrown ∧
    (ResolveResult.thrown : ResolveResult Task) ≠ .notFound := by decide

/-- C4 (amended): for every ref beginning with the literal prefix "id:",
`resolveTaskRef` takes the remainder verbatim as the id and fetches it
directly, never issuing the free-text search or raw-id strategies (the result
does not depend on the search response); when the direct fetch fails, the
failure is the propagated fetch error, not the NotFound error. -/
theorem c4_amended :
    ∀ (fetch : String → Option Task) (sr : Option (List Task)) (ref : String),
      isIdRef ref = true →
      (∀ t, fetch (extractId ref) = some t → resolveTaskRef fetch sr ref = .resolved t) ∧
      (fetch (extractId ref) = none → resolveTaskRef fetch sr ref = .thrown) := by
  intro fetch sr ref hid
  have hws := allWhitespace_false_of_isIdRef hid
  have hurl := parseTodoistUrl_of_isIdRef hid
  constructor
  · intro t hf
    simp [resolveTaskRef, hws, hurl, hid, hf]
  · intro hf
    simp [resolveTaskRef, hws, hurl, hid, hf]

/-- Witness for C4 (amended) at a concrete input: the remainder "abc" is
fetched directly even though the fetch table is keyed by it alone. -/
theorem c4_witness :
    resolveTaskRef (fun s => if s == "abc" then some (sampleTask "9" "Abc") else none)
      (some []) "id:abc" = .resolved (sampleTask "9" "Abc") :=
  (c4_amended (fun s => if s == "abc" then some (sampleTask "9" "Abc") else none)
      (some []) "id:abc" (by decide)).1 (sampleTask "9" "Abc") (by decide)

/-- C5: for every ref reaching the free-text-search strategy, a throwing
search call is not propagated: resolution proceeds to the raw-id fallback,
and when that fallback yields nothing (the ref does not look like an id, or
the fallback fetch fails) the terminal result is the NotFound error. -/
theorem c5_search_error_fallback :
    ∀ (fetch : String → Option Task) (ref : String),
      allWhitespace ref = false → parseTodoistUrl ref = none → isIdRef ref = false →
      (∀ t, looksLikeRawId ref = true → fetch ref = some t →
        resolveTaskRef fetch none ref = .resolved t) ∧
      (looksLikeRawId ref = true → fetch ref = none →
        resolveTaskRef fetch none ref = .notFound) ∧
      (looksLikeRawId ref = false → resolveTaskRef fetch none ref = .notFound) := by
  intro fetch ref hws hurl hid
  refine ⟨?_, ?_, ?_⟩
  · intro t hraw hf
    rw [resolveTaskRef_search fetch none ref hws hurl hid]
    simp [Option.bind, hraw, hf]
  · intro hraw hf
    rw [resolveTaskRef_search fetch none ref hws hurl hid]
    simp [Option.bind, hraw, hf]
  · intro hraw
    rw [resolveTaskRef_search fetch none ref hws hurl hid]
    simp [Option.bind, hraw]

/-- Witness for C5 at concrete inputs: with a throwing search, a non-id-like
ref and an id-like ref with failing fallback both end in NotFound. -/
theorem c5_witness :
    resolveTaskRef (fun _ => none) none "hello world" = .notFound ∧
    resolveTaskRef (fun _ => none) none "zz9" = .notFound :=
  ⟨(c5_search_error_fallback (fun _ => none) "hello world"
      (by decide) (by decide) (by decide)).2.2 (by decide),
   (c5_search_error_fallback (fun _ => none) "zz9"
      (by decide) (by decide) (by decide)).2.1 (by decide) (by decide)⟩

/-- Counterexample to C6: the ref "a-1" contains a character that is neither
alphanumeric nor whitespace, so the spec's characterization ("all digits or an
alphanumeric string with a letter and a digit") rejects it, yet the source's
`looksLikeRawId` accepts it and the fallback fetch is attempted (and here
succeeds). -/
theorem c6_counterexample :
    looksLikeRawId "a-1" = true ∧ specLooksLikeRawId "a-1" = false ∧
    resolveTaskRef (fun s => if s == "a-1" then some (sampleTask "7" "Alpha") else none)
      (some []) "a-1" = .resolved (sampleTask "7" "Alpha") := by decide

/-- C6 (amended): the raw-id fallback fetch is attempted if and only if the
ref contains no space character and is either nonempty all-digits or contains
at least one ASCII letter and at least one digit (other characters such as
hyphens are permitted, and whitespace other than the space character is not
excluded); a failure of the fallback fetch is swallowed, yielding NotFound. -/
theorem c6_amended :
    (∀ ref : String,
      looksLikeRawId ref =
        (!ref.data.contains ' ' &&
          ((!ref.data.isEmpty && ref.data.all Char.isDigit) ||
            (ref.data.any Char.isAlpha && ref.data.any Char.isDigit)))) ∧
    (∀ (fetch : String → Option Task) (sr : Option (List Task)) (ref : String),
      allWhitespace ref = false → parseTodoistUrl ref = none → isIdRef ref = false →
      (sr.bind fun rs => rankCandidates Task.content Task.id ref rs) = none →
      (looksLikeRawId ref = false → resolveTaskRef fetch sr ref = .notFound) ∧
      (looksLikeRawId ref = true → fetch ref = none →
        resolveTaskRef fetch sr ref = .notFound) ∧
      (∀ t, looksLikeRawId ref = true → fetch ref = some t →
        resolveTaskRef fetch sr ref = .resolved t)) := by
  constructor
  · intro ref
    unfold looksLikeRawId
    cases hc : ref.data.contains ' ' with
    | true => rfl
    | false => rfl
  · intro fetch sr ref hws hurl hid hrank
    refine ⟨?_, ?_, ?_⟩
    · intro hraw
      rw [resolveTaskRef_search fetch sr ref hws hurl hid, hrank]
      simp [hraw]
    · intro hraw hf
      rw [resolveTaskRef_search fetch sr ref hws hurl hid, hrank]
      simp [hraw, hf]
    · intro t hraw hf
      rw [resolveTaskRef_search fetch sr ref hws hurl hid, hrank]
      simp [hraw, hf]

/-- Witness for C6 (amended) at concrete inputs: "x7" looks like a raw id and
its failing fallback fetch is swallowed into NotFound; "xy" does not look like
a raw id. -/
theorem c6_witness :
    looksLikeRawId "x7" =
      (!"x7".data.contains ' ' &&
        ((!"x7".data.isEmpty && "x7".data.all Char.isDigit) ||
          ("x7".data.any Char.isAlpha && "x7".data.any Char.isDigit))) ∧
    resolveTaskRef (fun _ => none) (some []) "x7" = .notFound ∧
    resolveTaskRef (fun _ => none) (some []) "xy" = .notFound :=
  ⟨c6_amended.1 "x7",
   (c6_amended.2 (fun _ => none) (some []) "x7"
      (by decide) (by decide) (by decide) (by decide)).2.1 (by decide) (by decide),
   (c6_amended.2 (fun _ => none) (some []) "xy"
      (by decide) (by decide) (by decide) (by decide)).1 (by decide)⟩

/-- C7 (code bug): in the zone UTC−05:00 (offset −300 minutes) at the instant
2026-10-11T06:40Z — 01:40 local time on the local day 2026-10-11 (epoch day
20737) — a task whose due date is exactly that local day is placed in the
overdue partition, because `new Date("2026-10-11")` is UTC midnight of the
date while `today.setHours(0,0,0,0)` is local midnight; the claim's
"a task due exactly today is excluded" therefore fails.  At UTC offset 0 the
same task is excluded, as the claim describes. -/
theorem c7_overdue_today_bug :
    parseDateUTCmin "2026-10-11" = some (20737 * 1440) ∧
    localDayOf (20737 * 1440 + 400) (-300) = 20737 ∧
    reviewOverdue (-300) (20737 * 1440 + 400) [overdueProbeTask] = [overdueProbeTask] ∧
    reviewOverdue 0 (20737 * 1440 + 400) [overdueProbeTask] = [] := by decide

/-- Counterexample to C8's exclusivity clause: supplying both --before and
--at is accepted (no usage error); the reminder command carries both the
minute offset and the absolute time. -/
theorem c8_counterexample :
    cmdReminderAddCheck (some "30m") (some "2026-02-20T10:00") true =
      .submitted (some 30) (some "2026-02-20T10:00") ∧
    cmdReminderAddCheck (some "30m") (some "2026-02-20T10:00") true ≠ .usageError := by
  decide

/-- C8 (amended): reminder-add requires at least one of --before and --at:
supplying neither fails with the usage error regardless of the task state
(the check precedes any remote call); supplying both is accepted — with a
valid duration and a task carrying a due value, both the minute offset and
the absolute time are forwarded. -/
theorem c8_amended :
    (∀ taskDue, cmdReminderAddCheck none none taskDue = .usageError) ∧
    (∀ (b a : String) (mins : Nat) (taskDue : Bool),
      parseDuration b = some mins → taskDue = true →
      cmdReminderAddCheck (some b) (some a) taskDue = .submitted (some mins) (some a)) := by
  constructor
  · intro taskDue
    rfl
  · intro b a mins taskDue hb htd
    subst htd
    simp [cmdReminderAddCheck, hb]

/-- Witness for C8 (amended) at concrete inputs. -/
theorem c8_witness :
    cmdReminderAddCheck none none false = .usageError ∧
    cmdReminderAddCheck (some "45") (some "2026-02-20T10:00") true =
      .submitted (some 45) (some "2026-02-20T10:00") :=
  ⟨c8_amended.1 false,
   c8_amended.2 "45" "2026-02-20T10:00" 45 true (by decide) rfl⟩

/-- C9: for every task whose due specification carries a free-text
description but no explicit date and no date-time, `formatTask` produces
`due = null`, `dueString` equal to that description, and `isRecurring` equal
to the source flag; in general the formatted due prefers the explicit date,
else the date-time, else null, and `isRecurring` is false whenever the task
has no due specification. -/
theorem c9_format_due :
    ∀ t : Task,
      (∀ d, t.due = some d → d.date = none → d.datetime = none →
        (formatTask t).due = none ∧ (formatTask t).dueString = some d.string ∧
        (formatTask t).isRecurring = d.isRecurring) ∧
      (∀ d x, t.due = some d → d.date = some x → (formatTask t).due = some x) ∧
      (∀ d, t.due = some d → d.date = none → (formatTask t).due = d.datetime) ∧
      (t.due = none → (formatTask t).due = none ∧ (formatTask t).isRecurring = false) := by
  intro t
  refine ⟨?_, ?_, ?_, ?_⟩
  · intro d hdue hdate hdt
    simp [formatTask, hdue, hdate, hdt]
  · intro d x hdue hdate
    simp [formatTask, hdue, hdate]
  · intro d hdue hdate
    simp [formatTask, hdue, hdate]
  · intro hdue
    simp [formatTask, hdue]

/-- Witness for C9 at a concrete recurring-description-only task. -/
theorem c9_witness :
    (formatTask (sampleTask "5" "Water plants")).isRecurring = false ∧
    (formatTask { sampleTask "5" "Water plants" with
      due := some { date := none, datetime := none, string := "every day",
                    isRecurring := true } }).due = none ∧
    (formatTask { sampleTask "5" "Water plants" with
      due := some { date := none, datetime := none, string := "every day",
                    isRecurring := true } }).dueString = some "every day" ∧
    (formatTask { sampleTask "5" "Water plants" with
      due := some { date := none, datetime := none, string := "every day",
                    isRecurring := true } }).isRecurring = true := by
  refine ⟨((c9_format_due (sampleTask "5" "Water plants")).2.2.2 rfl).2, ?_⟩
  have h := (c9_format_due { sampleTask "5" "Water plants" with
    due := some { date := none, datetime := none, string := "every day",
                  isRecurring := true } }).1
    { date := none, datetime := none, string := "every day", isRecurring := true }
    rfl rfl rfl
  exact ⟨h.1, h.2.1, h.2.2⟩

/-- The seven-result search response refuting C10's candidate-list clause:
five substring-only matches precede the two exact matches. -/
def c10Results : List Task :=
  [sampleTask "1" "redeploy a", sampleTask "2" "redeploy b", sampleTask "3" "redeploy c",
   sampleTask "4" "redeploy d", sampleTask "5" "redeploy e", sampleTask "6" "Deploy",
   sampleTask "7" "deploy"]

/-- Counterexample to C10's listing clause: with two exact matches preceded by
five substring matches, resolution does fail with the ambiguous error, but the
5-capped candidate list omits both exact matches. -/
theorem c10_counterexample :
    (exactMatches Task.content "deploy" c10Results).length = 2 ∧
    resolveTaskRef (fun _ => none) (some c10Results) "deploy" =
      .ambiguous [("redeploy a", "1"), ("redeploy b", "2"), ("redeploy c", "3"),
        ("redeploy d", "4"), ("redeploy e", "5")] ∧
    ("Deploy", "6") ∉ [("redeploy a", "1"), ("redeploy b", "2"), ("redeploy c", "3"),
        ("redeploy d", "4"), ("redeploy e", "5")] ∧
    ("deploy", "7") ∉ [("redeploy a", "1"), ("redeploy b", "2"), ("redeploy c", "3"),
        ("redeploy d", "4"), ("redeploy e", "5")] := by decide

/-- C10 (amended): for every search-result list in which two or more
candidates' display text lowercased equals the ref lowercased,
`resolveTaskRef` never returns one of them: since every exact match is also a
substring match, it fails with the ambiguous-reference error listing the
first at most 5 substring matches in search order (a list that contains the
exact matches only when they occur among the first five substring matches). -/
theorem c10_amended :
    ∀ (fetch : String → Option Task) (rs : List Task) (ref : String),
      allWhitespace ref = false → parseTodoistUrl ref = none → isIdRef ref = false →
      2 ≤ (exactMatches Task.content ref rs).length →
      resolveTaskRef fetch (some rs) ref =
        .ambiguous (((substrMatches Task.content ref rs).take 5).map
          fun t => (t.content, t.id)) ∧
      ∀ t, resolveTaskRef fetch (some rs) ref ≠ .resolved t := by
  intro fetch rs ref hws hurl hid hE2
  have hS : 2 ≤ (substrMatches Task.content ref rs).length :=
    le_trans hE2 (length_exact_le_substr Task.content ref rs)
  have hne : (exactMatches Task.content ref rs).length ≠ 1 := by omega
  have hmain : resolveTaskRef fetch (some rs) ref =
      .ambiguous (((substrMatches Task.content ref rs).take 5).map
        fun t => (t.content, t.id)) := by
    rw [resolveTaskRef_search fetch (some rs) ref hws hurl hid]
    simp [Option.bind, rank_of_ambiguous Task.content Task.id ref rs hne hS]
  refine ⟨hmain, fun t h => ?_⟩
  rw [hmain] at h
  exact ResolveResult.noConfusion h

/-- Witness for C10 (amended) at a concrete input with two exact matches. -/
theorem c10_witness :
    resolveTaskRef (fun _ => none)
      (some [sampleTask "1" "Send mail", sampleTask "2" "send mail"]) "send mail" =
      .ambiguous [("Send mail", "1"), ("send mail", "2")] := by
  rw [(c10_amended (fun _ => none) [sampleTask "1" "Send mail", sampleTask "2" "send mail"]
    "send mail" (by decide) (by decide) (by decide) (by decide)).1]
  decide

end TodoistCli
